import Mathlib

/-!
Verification development for the Cartridge engine repository.

The Rust sources are shallowly embedded: bytes are `Nat` values below 256 held
in `List Nat`, machine integers are `Nat` with explicit bounds where they
matter, and `f32` values are represented by their IEEE-754 binary32 bit
patterns (the games in this repository only ever produce the literals
0.0, 1.0 and -1.0, whose bit patterns are fixed constants).  Fallible Rust
functions returning `Result` become `Except`.
-/

namespace Cartridge

/-- Little-endian 4-byte encoding of a 32-bit value (`u32::to_le_bytes` /
`f32::to_le_bytes` applied to the value's bit pattern). -/
def u32le (v : Nat) : List Nat :=
  [v % 256, v / 256 % 256, v / 65536 % 256, v / 16777216 % 256]

/-- Little-endian decoding of a 4-byte buffer back to a 32-bit value
(`u32::from_le_bytes`). -/
def u32fromLE (b : List Nat) : Nat :=
  b.getD 0 0 + 256 * b.getD 1 0 + 65536 * b.getD 2 0 + 16777216 * b.getD 3 0

/-- Bit pattern of the f32 literal 0.0. -/
def f32Zero : Nat := 0

/-- Bit pattern of the f32 literal 1.0. -/
def f32One : Nat := 0x3F800000

/-- Bit pattern of the f32 literal -1.0. -/
def f32NegOne : Nat := 0xBF800000

/-- Error type for encoding operations (engine-core `typed.rs`). -/
inductive EncodeError where
  | serializationError (reason : String)
  | bufferTooSmall (needed available : Nat)
  | invalidData (reason : String)
deriving DecidableEq, Repr

/-- Error type for decoding operations (engine-core `typed.rs`). -/
inductive DecodeError where
  | deserializationError (reason : String)
  | invalidLength (expected actual : Nat)
  | corruptedData (reason : String)
  | unsupportedVersion (version : Nat)
deriving DecidableEq, Repr

/-- Display string of an `EncodeError` (the `thiserror` format strings). -/
def EncodeError.msg : EncodeError → String
  | .serializationError r => "Failed to encode data: " ++ r
  | .bufferTooSmall n a =>
      "Buffer too small, needed " ++ toString n ++ " bytes but got " ++ toString a
  | .invalidData r => "Invalid data: " ++ r

/-- Display string of a `DecodeError` (the `thiserror` format strings). -/
def DecodeError.msg : DecodeError → String
  | .deserializationError r => "Failed to decode data: " ++ r
  | .invalidLength e a =>
      "Invalid buffer length: expected " ++ toString e ++ " but got " ++ toString a
  | .corruptedData r => "Corrupted data: " ++ r
  | .unsupportedVersion v => "Unsupported version: " ++ toString v

/-- Runtime error for erased game operations (engine-core `erased.rs`). -/
inductive ErasedGameError where
  | encoding (reason : String)
  | decoding (reason : String)
  | invalidState (reason : String)
  | invalidAction (reason : String)
  | gameLogic (reason : String)
deriving DecidableEq, Repr

/-- Engine identification information (engine-core `typed.rs`). -/
structure EngineId where
  env_id : String
  build_id : String
deriving DecidableEq, Repr

/-- Encoding format specifications (engine-core `typed.rs`). -/
structure Encoding where
  state : String
  action : String
  obs : String
  schema_version : Nat
deriving DecidableEq, Repr

/-- Action space variants (engine-core `typed.rs`); f32 bounds are carried as
bit patterns. -/
inductive ActionSpace where
  | discrete (n : Nat)
  | multiDiscrete (nvec : List Nat)
  | continuous (low high : List Nat) (shape : List Nat)
deriving DecidableEq, Repr

/-- Game capabilities and configuration (engine-core `typed.rs`). -/
structure Capabilities where
  id : EngineId
  encoding : Encoding
  max_horizon : Nat
  action_space : ActionSpace
  preferred_batch : Nat
deriving DecidableEq, Repr

end Cartridge

namespace Cartridge.TTT

/-- TicTacToe game state (games-tictactoe `lib.rs`): board cells are bytes
with 0 = empty, 1 = X, 2 = O; `current_player` is 1 = X or 2 = O; `winner`
is 0 = none/ongoing, 1 = X, 2 = O, 3 = draw.  The Rust board is `[u8; 9]`;
here it is a byte list which is length 9 for every state the game builds. -/
structure State where
  board : List Nat
  current_player : Nat
  winner : Nat
deriving DecidableEq, Repr

/-- Create a new initial game state (`State::new`): empty board, X to move. -/
def State.new : State :=
  { board := List.replicate 9 0, current_player := 1, winner := 0 }

/-- Check if the game is over (`State::is_done`). -/
def State.is_done (s : State) : Bool :=
  s.winner != 0

/-- Winning positions: rows, columns, diagonals (the `LINES` constant). -/
def LINES : List (Nat × Nat × Nat) :=
  [(0, 1, 2), (3, 4, 5), (6, 7, 8),
   (0, 3, 6), (1, 4, 7), (2, 5, 8),
   (0, 4, 8), (2, 4, 6)]

/-- Winner on one line, if any: the loop body of `State::check_winner`
applied to the cells a, b, c of one line. -/
def lineWinner (board : List Nat) (l : Nat × Nat × Nat) : Option Nat :=
  if board.getD l.1 0 ≠ 0 ∧ board.getD l.1 0 = board.getD l.2.1 0 ∧
      board.getD l.2.1 0 = board.getD l.2.2 0 then
    some (board.getD l.1 0)
  else none

/-- Check for a winner on the board (`State::check_winner`): the first line
whose three cells agree and are nonzero wins; a full board with no winner is
a draw (3); otherwise the game is ongoing (0). -/
def State.check_winner (board : List Nat) : Nat :=
  (LINES.findSome? (lineWinner board)).getD
    (if board.all (fun cell => cell != 0) then 3 else 0)

/-- Make a move and return the new state (`State::make_move`).  Invalid
moves (game over, position out of range, or cell occupied) return the state
unchanged. -/
def State.make_move (s : State) (position : Nat) : State :=
  if s.is_done ∨ 9 ≤ position ∨ s.board.getD position 0 ≠ 0 then
    s
  else
    let board' := s.board.set position s.current_player
    let winner' := State.check_winner board'
    { board := board'
      winner := winner'
      current_player :=
        if winner' = 0 then (if s.current_player = 1 then 2 else 1)
        else s.current_player }

/-- Legal moves: the empty positions, none once the game is over
(`State::legal_moves`). -/
def State.legal_moves (s : State) : List Nat :=
  if s.is_done then []
  else (List.range 9).filter (fun pos => s.board.getD pos 0 == 0)

/-- TicTacToe observation (games-tictactoe `lib.rs`): 18 board one-hot
values, 9 legal-move mask values and 2 current-player indicator values, each
an f32 carried as its bit pattern. -/
structure Observation where
  board_view : List Nat
  legal_moves : List Nat
  current_player : List Nat
deriving DecidableEq, Repr

/-- Create the observation for a state (`Observation::from_state`). -/
def Observation.from_state (s : State) : Observation :=
  let bv :=
    s.board.enum.foldl
      (fun bv p =>
        if p.2 = 1 then bv.set p.1 f32One
        else if p.2 = 2 then bv.set (p.1 + 9) f32One
        else bv)
      (List.replicate 18 f32Zero)
  let lm :=
    if s.is_done then List.replicate 9 f32Zero
    else s.legal_moves.foldl (fun lm pos => lm.set pos f32One) (List.replicate 9 f32Zero)
  let cp := if s.current_player = 1 then [f32One, f32Zero] else [f32Zero, f32One]
  { board_view := bv, legal_moves := lm, current_player := cp }

/-- TicTacToe action: place a piece at a position 0-8. -/
inductive Action where
  | place (pos : Nat)
deriving DecidableEq, Repr

/-- Position of an action (`Action::position`). -/
def Action.position : Action → Nat
  | .place pos => pos

/-- Reward for the state just produced, from the perspective of the player
who moved (`TicTacToe::calculate_reward`); the result is an f32 bit
pattern. -/
def calculate_reward (state : State) (previous_player : Nat) : Nat :=
  match state.winner with
  | 0 => f32Zero
  | 1 => if previous_player = 1 then f32One else f32NegOne
  | 2 => if previous_player = 2 then f32One else f32NegOne
  | 3 => f32Zero
  | _ => f32Zero

/-- Package version tag of the games-tictactoe crate, injected by the build
environment; its value is irrelevant to every property proved here. -/
def pkgVersion : String := "0.1.0"

/-- Engine identity of the TicTacToe game (`TicTacToe::engine_id`). -/
def engine_id : EngineId :=
  { env_id := "tictactoe", build_id := pkgVersion }

/-- Capabilities of the TicTacToe game (`TicTacToe::capabilities`). -/
def capabilities : Capabilities :=
  { id := engine_id
    encoding :=
      { state := "tictactoe_state:v1"
        action := "discrete_position:v1"
        obs := "f32x29:v1"
        schema_version := 1 }
    max_horizon := 9
    action_space := ActionSpace.discrete 9
    preferred_batch := 64 }

/-- Reset the game (`TicTacToe::reset`): ignores the RNG and hint, returns
the initial state and its observation. -/
def reset : State × Observation :=
  (State.new, Observation.from_state State.new)

/-- Step the game (`TicTacToe::step`): apply the move, observe the new
state, compute the reward for the player who just moved and whether the
game is done. -/
def step (state : State) (action : Action) : State × Observation × Nat × Bool :=
  let previous_player := state.current_player
  let state' := state.make_move action.position
  let obs := Observation.from_state state'
  let reward := calculate_reward state' previous_player
  (state', obs, reward, state'.is_done)

/-- Encode a state as 11 bytes appended to `out` (`TicTacToe::encode_state`):
board, then current player, then winner. -/
def encode_state (state : State) (out : List Nat) : Except EncodeError (List Nat) :=
  Except.ok (out ++ state.board ++ [state.current_player, state.winner])

/-- Decode an 11-byte state buffer (`TicTacToe::decode_state`), validating
the current player, the winner and every board cell. -/
def decode_state (buf : List Nat) : Except DecodeError State :=
  if buf.length ≠ 11 then
    Except.error (DecodeError.invalidLength 11 buf.length)
  else
    let board := buf.take 9
    let current_player := buf.getD 9 0
    let winner := buf.getD 10 0
    if current_player ≠ 1 ∧ current_player ≠ 2 then
      Except.error (DecodeError.corruptedData ("Invalid current_player: " ++ toString current_player))
    else if 3 < winner then
      Except.error (DecodeError.corruptedData ("Invalid winner: " ++ toString winner))
    else
      match board.find? (fun cell => decide (2 < cell)) with
      | some cell =>
          Except.error (DecodeError.corruptedData ("Invalid board cell: " ++ toString cell))
      | none =>
          Except.ok { board := board, current_player := current_player, winner := winner }

/-- Encode an action as one byte appended to `out`
(`TicTacToe::encode_action`); positions outside 0-8 are rejected. -/
def encode_action (action : Action) (out : List Nat) : Except EncodeError (List Nat) :=
  if 9 ≤ action.position then
    Except.error (EncodeError.invalidData ("Invalid action position: " ++ toString action.position))
  else
    Except.ok (out ++ [action.position])

/-- Decode a one-byte action buffer (`TicTacToe::decode_action`). -/
def decode_action (buf : List Nat) : Except DecodeError Action :=
  if buf.length ≠ 1 then
    Except.error (DecodeError.invalidLength 1 buf.length)
  else
    let position := buf.getD 0 0
    if 9 ≤ position then
      Except.error (DecodeError.corruptedData ("Invalid action position: " ++ toString position))
    else
      Except.ok (Action.place position)

/-- Encode an observation as 29 little-endian f32 values appended to `out`
(`TicTacToe::encode_obs`). -/
def encode_obs (obs : Observation) (out : List Nat) : Except EncodeError (List Nat) :=
  let out := obs.board_view.foldl (fun acc v => acc ++ u32le v) out
  let out := obs.legal_moves.foldl (fun acc v => acc ++ u32le v) out
  let out := obs.current_player.foldl (fun acc v => acc ++ u32le v) out
  Except.ok out

end Cartridge.TTT

namespace Cartridge.TTT

/-- Well-formed states: the shape every state built by the game satisfies.
The board has nine cells, each cell is empty or owned by one of the two
players, the player to move is one of the two players, and the winner tag
is one of the four legal values. -/
def State.WF (s : State) : Prop :=
  s.board.length = 9 ∧ (∀ c ∈ s.board, c ≤ 2) ∧
    (s.current_player = 1 ∨ s.current_player = 2) ∧ s.winner ≤ 3

/-- States reachable by playing the game from the initial state. -/
inductive Reachable : State → Prop where
  | init : Reachable State.new
  | move (s : State) (pos : Nat) : Reachable s → Reachable (s.make_move pos)

theorem getD_le_two (board : List Nat) (hb : ∀ c ∈ board, c ≤ 2) (i : Nat) :
    board.getD i 0 ≤ 2 := by
  by_cases hlt : i < board.length
  · rw [List.getD_eq_getElem board 0 hlt]
    exact hb _ (List.getElem_mem hlt)
  · rw [List.getD_eq_default board 0 (Nat.le_of_not_lt hlt)]
    omega

theorem check_winner_le_three (board : List Nat) (hb : ∀ c ∈ board, c ≤ 2) :
    State.check_winner board ≤ 3 := by
  unfold State.check_winner
  cases hfs : LINES.findSome? (lineWinner board) with
  | none =>
      rw [Option.getD_none]
      split <;> omega
  | some w =>
      rw [Option.getD_some]
      obtain ⟨l, _, hl⟩ := List.exists_of_findSome?_eq_some hfs
      unfold lineWinner at hl
      split at hl
      · cases hl
        exact Nat.le_succ_of_le (getD_le_two board hb l.1)
      · cases hl

theorem State.WF_new : State.WF State.new := by
  unfold State.WF State.new
  decide

theorem State.WF_make_move (s : State) (pos : Nat) (h : s.WF) :
    (s.make_move pos).WF := by
  obtain ⟨hlen, hcells, hcp, hw⟩ := h
  unfold State.make_move
  split
  · exact ⟨hlen, hcells, hcp, hw⟩
  · have hcells' : ∀ c ∈ s.board.set pos s.current_player, c ≤ 2 := by
      intro c hc
      rcases List.mem_or_eq_of_mem_set hc with hm | he
      · exact hcells c hm
      · subst he
        rcases hcp with h1 | h2 <;> omega
    refine ⟨by simpa using hlen, hcells', ?_, check_winner_le_three _ hcells'⟩
    dsimp only
    split
    · split <;> simp
    · exact hcp

theorem State.WF_of_reachable (s : State) (h : Reachable s) : s.WF := by
  induction h with
  | init => exact State.WF_new
  | move s pos _ ih => exact State.WF_make_move s pos ih

theorem decode_encode_state_of_WF (s : State) (h : s.WF) :
    decode_state (s.board ++ [s.current_player, s.winner]) = Except.ok s := by
  obtain ⟨hlen, hcells, hcp, hw⟩ := h
  have hlen11 : (s.board ++ [s.current_player, s.winner]).length = 11 := by
    simp [hlen]
  have htake : (s.board ++ [s.current_player, s.winner]).take 9 = s.board := by
    rw [← hlen]
    exact List.take_left s.board _
  have hg9 : (s.board ++ [s.current_player, s.winner]).getD 9 0 = s.current_player := by
    rw [List.getD_append_right _ _ _ _ (by omega), hlen]
    rfl
  have hg10 : (s.board ++ [s.current_player, s.winner]).getD 10 0 = s.winner := by
    rw [List.getD_append_right _ _ _ _ (by omega), hlen]
    rfl
  unfold decode_state
  rw [if_neg (by omega)]
  rw [hg9, hg10, htake]
  rw [if_neg (by rcases hcp with h | h <;> simp [h])]
  rw [if_neg (by omega)]
  have hfind : s.board.find? (fun cell => decide (2 < cell)) = none := by
    rw [List.find?_eq_none]
    intro c hc
    simpa using Nat.not_lt.mpr (hcells c hc)
  rw [hfind]

end Cartridge.TTT

namespace Cartridge

open Cartridge.TTT

/-- C5: for the tic-tac-toe environment, every reachable state survives the
encode/decode round trip, and every action with position below 9 survives
the action encode/decode round trip. -/
theorem ttt_roundtrip_reachable (S : State) (hS : Reachable S) (A : Action)
    (hA : A.position < 9) :
    (∃ b, TTT.encode_state S [] = Except.ok b ∧ TTT.decode_state b = Except.ok S) ∧
    (∃ b, TTT.encode_action A [] = Except.ok b ∧ TTT.decode_action b = Except.ok A) := by
  constructor
  · refine ⟨S.board ++ [S.current_player, S.winner], rfl, ?_⟩
    exact decode_encode_state_of_WF S (State.WF_of_reachable S hS)
  · refine ⟨[A.position], ?_, ?_⟩
    · unfold TTT.encode_action
      rw [if_neg (by omega)]
      rfl
    · unfold TTT.decode_action
      rw [if_neg (by simp)]
      simp only [List.getD]
      rw [if_neg (by simpa using hA)]
      cases A
      rfl

theorem ttt_roundtrip_reachable_witness :
    ∃ b, TTT.encode_state (State.new.make_move 4) [] = Except.ok b ∧
      TTT.decode_state b = Except.ok (State.new.make_move 4) :=
  (ttt_roundtrip_reachable (State.new.make_move 4)
    (Reachable.move State.new 4 Reachable.init) (Action.place 0) (by decide)).1

/-- C6: the tic-tac-toe state decoder rejects every buffer whose length is
not 11 and the action decoder rejects every buffer whose length is not 1,
each with the InvalidLength error recording the expected and actual
lengths. -/
theorem ttt_invalid_length_rejected (bufS bufA : List Nat)
    (hS : bufS.length ≠ 11) (hA : bufA.length ≠ 1) :
    TTT.decode_state bufS = Except.error (DecodeError.invalidLength 11 bufS.length) ∧
    TTT.decode_action bufA = Except.error (DecodeError.invalidLength 1 bufA.length) := by
  constructor
  · unfold TTT.decode_state
    rw [if_pos hS]
  · unfold TTT.decode_action
    rw [if_pos hA]

theorem ttt_invalid_length_rejected_witness :
    TTT.decode_state [1, 2, 3] = Except.error (DecodeError.invalidLength 11 3) ∧
    TTT.decode_action [1, 2] = Except.error (DecodeError.invalidLength 1 2) :=
  ttt_invalid_length_rejected [1, 2, 3] [1, 2] (by decide) (by decide)

end Cartridge

namespace Cartridge.TTT

theorem foldl_append_u32le_length (l : List Nat) (init : List Nat) :
    (l.foldl (fun acc v => acc ++ u32le v) init).length = init.length + 4 * l.length := by
  induction l generalizing init with
  | nil => simp
  | cons x xs ih =>
      rw [List.foldl_cons, ih]
      simp only [List.length_append, u32le, List.length_cons, List.length_nil]
      omega

theorem foldl_set_length {α : Type} (f : List Nat → α → List Nat)
    (hf : ∀ acc x, (f acc x).length = acc.length) (l : List α) (init : List Nat) :
    (l.foldl f init).length = init.length := by
  induction l generalizing init with
  | nil => rfl
  | cons x xs ih => rw [List.foldl_cons, ih, hf]

theorem from_state_shape (s : State) :
    (Observation.from_state s).board_view.length = 18 ∧
    (Observation.from_state s).legal_moves.length = 9 ∧
    (Observation.from_state s).current_player.length = 2 := by
  refine ⟨?_, ?_, ?_⟩
  · show (s.board.enum.foldl _ (List.replicate 18 f32Zero)).length = 18
    rw [foldl_set_length]
    · simp
    · intro acc p
      dsimp only
      split
      · simp
      · split <;> simp
  · show (if s.is_done then _ else (s.legal_moves.foldl _ (List.replicate 9 f32Zero))).length = 9
    split
    · simp
    · rw [foldl_set_length]
      · simp
      · intro acc x
        simp
  · show (if s.current_player = 1 then [f32One, f32Zero] else [f32Zero, f32One]).length = 2
    split <;> rfl

end Cartridge.TTT

namespace Cartridge

open Cartridge.TTT

/-- C8: the tic-tac-toe capabilities advertise max_horizon 9 and a discrete
action space of 9 actions; every encoded state is exactly 11 bytes and every
encoded observation is exactly 116 bytes (29 little-endian f32 values). -/
theorem ttt_capabilities_and_sizes (s : State) (hs : s.board.length = 9) :
    TTT.capabilities.max_horizon = 9 ∧
    TTT.capabilities.action_space = ActionSpace.discrete 9 ∧
    (∀ b, TTT.encode_state s [] = Except.ok b → b.length = 11) ∧
    (∀ t b, TTT.encode_obs (Observation.from_state t) [] = Except.ok b → b.length = 116) := by
  refine ⟨rfl, rfl, ?_, ?_⟩
  · intro b hb
    unfold TTT.encode_state at hb
    cases hb
    simp [hs]
  · intro t b hb
    obtain ⟨h18, h9, h2⟩ := from_state_shape t
    unfold TTT.encode_obs at hb
    cases hb
    rw [foldl_append_u32le_length, foldl_append_u32le_length, foldl_append_u32le_length]
    rw [h18, h9, h2]
    rfl

theorem ttt_capabilities_and_sizes_witness :
    (([] : List Nat) ++ State.new.board ++
      [State.new.current_player, State.new.winner]).length = 11 :=
  (ttt_capabilities_and_sizes State.new (by decide)).2.2.1 _ rfl

/-- C9: stepping tic-tac-toe with an invalid action - an occupied position,
or any move once the game is done - leaves the state unchanged, and when the
game was not already over the reward is 0.0 and done is false. -/
theorem ttt_invalid_move_is_noop (s : State) (pos : Nat)
    (h : s.is_done = true ∨ s.board.getD pos 0 ≠ 0) :
    (TTT.step s (Action.place pos)).1 = s ∧
    (s.is_done = false →
      (TTT.step s (Action.place pos)).2.2.1 = f32Zero ∧
      (TTT.step s (Action.place pos)).2.2.2 = false) := by
  have hcond : (s.is_done = true) ∨ 9 ≤ pos ∨ s.board.getD pos 0 ≠ 0 := by
    rcases h with h | h
    · exact Or.inl h
    · exact Or.inr (Or.inr h)
  have hmm : s.make_move pos = s := by
    unfold State.make_move
    rw [if_pos hcond]
  have hstep : TTT.step s (Action.place pos) =
      (s, Observation.from_state s, calculate_reward s s.current_player, s.is_done) := by
    simp only [TTT.step, Action.position, hmm]
  rw [hstep]
  refine ⟨rfl, fun hdone => ?_⟩
  have hw : s.winner = 0 := by
    unfold State.is_done at hdone
    simpa using hdone
  constructor
  · show calculate_reward s s.current_player = f32Zero
    unfold calculate_reward
    rw [hw]
  · exact hdone

theorem ttt_invalid_move_is_noop_witness :
    (TTT.step (State.new.make_move 4) (Action.place 4)).1 = State.new.make_move 4 ∧
    ((State.new.make_move 4).is_done = false →
      (TTT.step (State.new.make_move 4) (Action.place 4)).2.2.1 = f32Zero ∧
      (TTT.step (State.new.make_move 4) (Action.place 4)).2.2.2 = false) :=
  ttt_invalid_move_is_noop (State.new.make_move 4) 4 (by decide)

/-- C10: on 11-byte inputs the tic-tac-toe state decoder validates content:
it succeeds exactly when the current-player byte is 1 or 2, the winner byte
is at most 3, and every board byte is at most 2, and it fails with a
CorruptedData error otherwise. -/
theorem ttt_decode_state_content_validation (buf : List Nat) (h : buf.length = 11) :
    (((buf.getD 9 0 = 1 ∨ buf.getD 9 0 = 2) ∧ buf.getD 10 0 ≤ 3 ∧
        ∀ c ∈ buf.take 9, c ≤ 2) →
      TTT.decode_state buf =
        Except.ok ⟨buf.take 9, buf.getD 9 0, buf.getD 10 0⟩) ∧
    (¬ ((buf.getD 9 0 = 1 ∨ buf.getD 9 0 = 2) ∧ buf.getD 10 0 ≤ 3 ∧
        ∀ c ∈ buf.take 9, c ≤ 2) →
      ∃ m, TTT.decode_state buf = Except.error (DecodeError.corruptedData m)) := by
  unfold TTT.decode_state
  rw [if_neg (by omega)]
  constructor
  · rintro ⟨hcp, hw, hcells⟩
    rw [if_neg (show ¬ _ by
      rcases hcp with h1 | h1
      · exact fun hcon => hcon.1 h1
      · exact fun hcon => hcon.2 h1)]
    rw [if_neg (by omega)]
    have hfind : (buf.take 9).find? (fun cell => decide (2 < cell)) = none := by
      rw [List.find?_eq_none]
      intro c hc
      simpa using Nat.not_lt.mpr (hcells c hc)
    rw [hfind]
  · intro hbad
    by_cases hcp : buf.getD 9 0 = 1 ∨ buf.getD 9 0 = 2
    · rw [if_neg (show ¬ _ by
        rcases hcp with h1 | h1
        · exact fun hcon => hcon.1 h1
        · exact fun hcon => hcon.2 h1)]
      by_cases hw : buf.getD 10 0 ≤ 3
      · rw [if_neg (by omega)]
        have hcell : ¬ ∀ c ∈ buf.take 9, c ≤ 2 := fun hall => hbad ⟨hcp, hw, hall⟩
        cases hfind : (buf.take 9).find? (fun cell => decide (2 < cell)) with
        | none =>
            exfalso
            apply hcell
            intro c hc
            have := List.find?_eq_none.mp hfind c hc
            simpa using this
        | some cell =>
            exact ⟨_, rfl⟩
      · rw [if_pos (by omega)]
        exact ⟨_, rfl⟩
    · rw [if_pos (by push_neg at hcp; exact ⟨hcp.1, hcp.2⟩)]
      exact ⟨_, rfl⟩

theorem ttt_decode_state_content_validation_witness :
    ∃ m, TTT.decode_state (List.replicate 11 0) =
      Except.error (DecodeError.corruptedData m) :=
  (ttt_decode_state_content_validation (List.replicate 11 0) (by decide)).2 (by decide)

end Cartridge

namespace Cartridge

/-- Typed game contract (engine-core `typed.rs` trait `Game`), shallowly
embedded: `G` is the game's own mutable value, `R` the RNG state, and `σ`,
`α`, `ω` the associated state, action and observation types.  Mutation of
the game value, the RNG and the state is modelled by returning the new
values; rewards are f32 bit patterns. -/
structure TGame (R G σ α ω : Type) where
  reset : G → R → List Nat → G × R × σ × ω
  step : G → σ → α → R → G × R × σ × ω × Nat × Bool
  encode_state : σ → List Nat → Except EncodeError (List Nat)
  decode_state : List Nat → Except DecodeError σ
  encode_action : α → List Nat → Except EncodeError (List Nat)
  decode_action : List Nat → Except DecodeError α
  encode_obs : ω → List Nat → Except EncodeError (List Nat)

/-- Adapter owning a typed game together with its own RNG (engine-core
`adapter.rs` struct `GameAdapter`). -/
structure GameAdapter (R G : Type) where
  game : G
  rng : R

/-- Erased reset of the adapter (`GameAdapter::reset` in `adapter.rs`):
overwrite the RNG with one seeded from the request seed, clear the output
buffers, call the inner reset, then encode state and observation into the
output buffers; encode failures become the Encoding erased variant. -/
def GameAdapter.resetE {R G σ α ω : Type} (tg : TGame R G σ α ω)
    (seed_from_u64 : Nat → R) (a : GameAdapter R G) (seed : Nat)
    (hint out_state out_obs : List Nat) :
    GameAdapter R G × Except ErasedGameError (List Nat × List Nat) :=
  let rng := seed_from_u64 seed
  let out_state := ([] : List Nat)
  let out_obs := ([] : List Nat)
  match tg.reset a.game rng hint with
  | (game', rng', state, obs) =>
    match tg.encode_state state out_state with
    | .error e => (⟨game', rng'⟩, .error (.encoding e.msg))
    | .ok out_state =>
      match tg.encode_obs obs out_obs with
      | .error e => (⟨game', rng'⟩, .error (.encoding e.msg))
      | .ok out_obs => (⟨game', rng'⟩, .ok (out_state, out_obs))

/-- Erased step of the adapter (`GameAdapter::step` in `adapter.rs`): clear
the output buffers, decode the input state and action (failures become the
Decoding erased variant), call the inner step with the adapter's current
RNG - the RNG is NOT re-seeded - then encode the new state and
observation. -/
def GameAdapter.stepE {R G σ α ω : Type} (tg : TGame R G σ α ω)
    (a : GameAdapter R G) (state action : List Nat)
    (out_state out_obs : List Nat) :
    GameAdapter R G × Except ErasedGameError (List Nat × List Nat × Nat × Bool) :=
  let out_state := ([] : List Nat)
  let out_obs := ([] : List Nat)
  match tg.decode_state state with
  | .error e => (a, .error (.decoding e.msg))
  | .ok s =>
    match tg.decode_action action with
    | .error e => (a, .error (.decoding e.msg))
    | .ok act =>
      match tg.step a.game s act a.rng with
      | (game', rng', s', obs, reward, done) =>
        match tg.encode_state s' out_state with
        | .error e => (⟨game', rng'⟩, .error (.encoding e.msg))
        | .ok sb =>
          match tg.encode_obs obs out_obs with
          | .error e => (⟨game', rng'⟩, .error (.encoding e.msg))
          | .ok ob => (⟨game', rng'⟩, .ok (sb, ob, reward, done))

/-- Typed drive of an episode tail: thread the game value, state and RNG
through successive typed steps, recording each step's reward bits and the
state it produced. -/
def typedSteps {R G σ α ω : Type} (tg : TGame R G σ α ω) :
    G → σ → R → List α → List (Nat × σ)
  | _, _, _, [] => []
  | g, s, r, act :: rest =>
    match tg.step g s act r with
    | (g', r', s', _obs, reward, _done) =>
      (reward, s') :: typedSteps tg g' s' r' rest

/-- Erased drive of an episode tail through the adapter: each step feeds
the state bytes produced by the previous step back in, as a client of the
erased interface does. -/
def erasedSteps {R G σ α ω : Type} (tg : TGame R G σ α ω) :
    GameAdapter R G → List Nat → List (List Nat) →
    Except ErasedGameError (List (Nat × List Nat))
  | _, _, [] => .ok []
  | a, state_bytes, ab :: rest =>
    match GameAdapter.stepE tg a state_bytes ab [] [] with
    | (_, .error e) => .error e
    | (a', .ok (sb, _ob, reward, _done)) =>
      match erasedSteps tg a' sb rest with
      | .error e => .error e
      | .ok tail => .ok ((reward, sb) :: tail)

/-- Typed drive of a whole episode on a fresh instance: seed the RNG, reset,
then run the steps; returns the initial state and the per-step reward and
state sequence. -/
def typedEpisode {R G σ α ω : Type} (tg : TGame R G σ α ω)
    (seed_from_u64 : Nat → R) (g0 : G) (seed : Nat) (hint : List Nat)
    (acts : List α) : σ × List (Nat × σ) :=
  match tg.reset g0 (seed_from_u64 seed) hint with
  | (g1, r1, s1, _obs1) => (s1, typedSteps tg g1 s1 r1 acts)

/-- Erased drive of a whole episode on a single adapter instance: erased
reset, then the erased steps; returns the encoded initial state and the
per-step reward and encoded-state sequence. -/
def erasedEpisode {R G σ α ω : Type} (tg : TGame R G σ α ω)
    (seed_from_u64 : Nat → R) (a0 : GameAdapter R G) (seed : Nat)
    (hint : List Nat) (actsBytes : List (List Nat)) :
    Except ErasedGameError (List Nat × List (Nat × List Nat)) :=
  match GameAdapter.resetE tg seed_from_u64 a0 seed hint [] [] with
  | (_, .error e) => .error e
  | (a1, .ok (sb, _ob)) =>
    match erasedSteps tg a1 sb actsBytes with
    | .error e => .error e
    | .ok out => .ok (sb, out)

end Cartridge

namespace Cartridge

/-- Pointwise relation between an erased step record (reward, state bytes)
and a typed step record (reward, state): equal rewards and state bytes that
are exactly the encoding of the typed state. -/
def StepMatches {R G σ α ω : Type} (tg : TGame R G σ α ω)
    (p : Nat × List Nat) (q : Nat × σ) : Prop :=
  p.1 = q.1 ∧ tg.encode_state q.2 [] = Except.ok p.2

theorem erasedSteps_refine {R G σ α ω : Type} (tg : TGame R G σ α ω)
    (Inv : σ → Prop) (VA : α → Prop)
    (HencS : ∀ s, Inv s → ∃ b, tg.encode_state s [] = Except.ok b)
    (HdecS : ∀ s b, Inv s → tg.encode_state s [] = Except.ok b →
      tg.decode_state b = Except.ok s)
    (HdecA : ∀ a b, VA a → tg.encode_action a [] = Except.ok b →
      tg.decode_action b = Except.ok a)
    (HencO : ∀ o, ∃ b, tg.encode_obs o [] = Except.ok b)
    (HstepInv : ∀ g s a r, Inv s → Inv (tg.step g s a r).2.2.1)
    (acts : List α) (actsBytes : List (List Nat))
    (hFa : List.Forall₂ (fun a b => VA a ∧ tg.encode_action a [] = Except.ok b)
      acts actsBytes)
    (g : G) (s : σ) (r : R) (sb : List Nat)
    (hInv : Inv s) (hsb : tg.encode_state s [] = Except.ok sb) :
    ∃ out, erasedSteps tg ⟨g, r⟩ sb actsBytes = Except.ok out ∧
      List.Forall₂ (StepMatches tg) out (typedSteps tg g s r acts) := by
  induction hFa generalizing g s r sb with
  | nil => exact ⟨[], rfl, List.Forall₂.nil⟩
  | cons hab hrest ih =>
      rename_i a b acts' actsBytes'
      have hds : tg.decode_state sb = Except.ok s := HdecS s sb hInv hsb
      have hda : tg.decode_action b = Except.ok a := HdecA a b hab.1 hab.2
      rcases hstep : tg.step g s a r with ⟨g', r', s', obs, reward, done⟩
      have hInv' : Inv s' := by
        have := HstepInv g s a r hInv
        rw [hstep] at this
        exact this
      obtain ⟨sb', hsb'⟩ := HencS s' hInv'
      obtain ⟨ob, hob⟩ := HencO obs
      have hstepE : GameAdapter.stepE tg ⟨g, r⟩ sb b [] [] =
          (⟨g', r'⟩, Except.ok (sb', ob, reward, done)) := by
        simp only [GameAdapter.stepE, hds, hda, hstep, hsb', hob]
      obtain ⟨tail, htail, hFa2⟩ := ih g' s' r' sb' hInv' hsb'
      refine ⟨(reward, sb') :: tail, ?_, ?_⟩
      · simp only [erasedSteps, hstepE, htail]
      · have httyped : typedSteps tg g s r (a :: acts') =
            (reward, s') :: typedSteps tg g' s' r' acts' := by
          simp only [typedSteps, hstep]
        rw [httyped]
        exact List.Forall₂.cons ⟨rfl, hsb'⟩ hFa2

/-- C2: for every typed game satisfying the environment contract (codecs
round-trip on invariant states and valid actions, encoders succeed), every
seed and every action sequence, driving reset then the steps through the
erased adapter on a single instance - whatever its prior RNG state - yields
a reward and encoded-state sequence bit-identical to the same sequence
driven through the typed interface against a freshly constructed instance
seeded from the same seed; the adapter re-seeds its RNG only on reset, so
successive steps advance the RNG stream produced by the reset seed. -/
theorem adapter_refines_typed {R G σ α ω : Type} (tg : TGame R G σ α ω)
    (seed_from_u64 : Nat → R) (Inv : σ → Prop) (VA : α → Prop)
    (HresetInv : ∀ g r hint, Inv (tg.reset g r hint).2.2.1)
    (HencS : ∀ s, Inv s → ∃ b, tg.encode_state s [] = Except.ok b)
    (HdecS : ∀ s b, Inv s → tg.encode_state s [] = Except.ok b →
      tg.decode_state b = Except.ok s)
    (HdecA : ∀ a b, VA a → tg.encode_action a [] = Except.ok b →
      tg.decode_action b = Except.ok a)
    (HencO : ∀ o, ∃ b, tg.encode_obs o [] = Except.ok b)
    (HstepInv : ∀ g s a r, Inv s → Inv (tg.step g s a r).2.2.1)
    (g0 : G) (r0 : R) (seed : Nat) (hint : List Nat)
    (acts : List α) (actsBytes : List (List Nat))
    (hFa : List.Forall₂ (fun a b => VA a ∧ tg.encode_action a [] = Except.ok b)
      acts actsBytes) :
    ∃ sb out,
      erasedEpisode tg seed_from_u64 ⟨g0, r0⟩ seed hint actsBytes =
        Except.ok (sb, out) ∧
      tg.encode_state (typedEpisode tg seed_from_u64 g0 seed hint acts).1 [] =
        Except.ok sb ∧
      List.Forall₂ (StepMatches tg) out
        (typedEpisode tg seed_from_u64 g0 seed hint acts).2 := by
  rcases hreset : tg.reset g0 (seed_from_u64 seed) hint with ⟨g1, r1, s1, obs1⟩
  have hInv1 : Inv s1 := by
    have := HresetInv g0 (seed_from_u64 seed) hint
    rw [hreset] at this
    exact this
  obtain ⟨sb, hsb⟩ := HencS s1 hInv1
  obtain ⟨ob, hob⟩ := HencO obs1
  have hresetE : GameAdapter.resetE tg seed_from_u64 ⟨g0, r0⟩ seed hint [] [] =
      (⟨g1, r1⟩, Except.ok (sb, ob)) := by
    simp only [GameAdapter.resetE, hreset, hsb, hob]
  have htyped : typedEpisode tg seed_from_u64 g0 seed hint acts =
      (s1, typedSteps tg g1 s1 r1 acts) := by
    unfold typedEpisode
    rw [hreset]
  obtain ⟨out, hout, hFa2⟩ :=
    erasedSteps_refine tg Inv VA HencS HdecS HdecA HencO HstepInv acts actsBytes
      hFa g1 s1 r1 sb hInv1 hsb
  refine ⟨sb, out, ?_, ?_, ?_⟩
  · simp only [erasedEpisode, hresetE, hout]
  · rw [htyped]
    exact hsb
  · rw [htyped]
    exact hFa2

end Cartridge

namespace Cartridge

open Cartridge.TTT

/-- Typed TicTacToe game packaged for the generic adapter.  `TicTacToe` is
a unit struct, and its reset and step ignore the RNG, so the game value is
`Unit` and any RNG state type can be threaded through unchanged. -/
def tictactoeTG (R : Type) : TGame R Unit State Action Observation where
  reset g r _hint := (g, r, State.new, Observation.from_state State.new)
  step g s a r :=
    match TTT.step s a with
    | (s', obs, reward, done) => (g, r, s', obs, reward, done)
  encode_state := TTT.encode_state
  decode_state := TTT.decode_state
  encode_action := TTT.encode_action
  decode_action := TTT.decode_action
  encode_obs := TTT.encode_obs

theorem ttt_decode_of_encode_WF (s : State) (b : List Nat) (h : s.WF)
    (he : TTT.encode_state s [] = Except.ok b) :
    TTT.decode_state b = Except.ok s := by
  cases he
  simpa using decode_encode_state_of_WF s h

theorem ttt_decode_of_encode_action (a : Action) (b : List Nat)
    (ha : a.position < 9) (he : TTT.encode_action a [] = Except.ok b) :
    TTT.decode_action b = Except.ok a := by
  unfold TTT.encode_action at he
  rw [if_neg (by omega)] at he
  cases he
  cases a with
  | place pos =>
      have hpos : pos < 9 := ha
      unfold TTT.decode_action
      rw [if_neg (show ¬(([] : List Nat) ++ [Action.position (Action.place pos)]).length ≠ 1
        from fun hcon => hcon rfl)]
      rw [if_neg (show ¬9 ≤ (([] : List Nat) ++ [Action.position (Action.place pos)]).getD 0 0
        from by simpa [Action.position] using hpos)]
      rfl

theorem tictactoeTG_step_WF (R : Type) (g : Unit) (s : State) (a : Action) (r : R)
    (h : s.WF) : ((tictactoeTG R).step g s a r).2.2.1.WF := by
  have : ((tictactoeTG R).step g s a r).2.2.1 = s.make_move a.position := by
    show (match TTT.step s a with
      | (s', obs, reward, done) => (g, r, s', obs, reward, done)).2.2.1 =
        s.make_move a.position
    unfold TTT.step
    rfl
  rw [this]
  exact State.WF_make_move s a.position h

theorem adapter_refines_typed_witness :
    ∃ sb out,
      erasedEpisode (tictactoeTG Unit) (fun _ => ()) ⟨(), ()⟩ 42 [] [[4], [0]] =
        Except.ok (sb, out) ∧
      (tictactoeTG Unit).encode_state
          (typedEpisode (tictactoeTG Unit) (fun _ => ()) () 42 []
            [Action.place 4, Action.place 0]).1 [] = Except.ok sb ∧
      List.Forall₂ (StepMatches (tictactoeTG Unit)) out
        (typedEpisode (tictactoeTG Unit) (fun _ => ()) () 42 []
          [Action.place 4, Action.place 0]).2 :=
  adapter_refines_typed (tictactoeTG Unit) (fun _ => ()) State.WF
    (fun a => a.position < 9)
    (fun _ _ _ => State.WF_new)
    (fun s _ => ⟨_, rfl⟩)
    (fun s b h he => ttt_decode_of_encode_WF s b h he)
    (fun a b ha he => ttt_decode_of_encode_action a b ha he)
    (fun o => ⟨_, rfl⟩)
    (fun g s a r h => tictactoeTG_step_WF Unit g s a r h)
    () () 42 []
    [Action.place 4, Action.place 0] [[4], [0]]
    (List.Forall₂.cons ⟨by decide, rfl⟩
      (List.Forall₂.cons ⟨by decide, rfl⟩ List.Forall₂.nil))

/-- C3: two erased resets with identical seeds and identical hint bytes on
adapters wrapping the same inner game produce bit-identical encoded initial
state and observation, whatever the adapters' previous RNG states and
whatever the previous contents of the output buffers: the adapter
overwrites its RNG with one seeded from the request seed and clears both
output buffers before invoking the inner reset. -/
theorem adapter_reset_deterministic {R G σ α ω : Type} (tg : TGame R G σ α ω)
    (seed_from_u64 : Nat → R) (a1 a2 : GameAdapter R G) (hg : a1.game = a2.game)
    (seed : Nat) (hint b1 b2 b3 b4 : List Nat) :
    (GameAdapter.resetE tg seed_from_u64 a1 seed hint b1 b2).2 =
    (GameAdapter.resetE tg seed_from_u64 a2 seed hint b3 b4).2 := by
  simp only [GameAdapter.resetE, hg]

theorem adapter_reset_deterministic_witness :
    (GameAdapter.resetE (tictactoeTG Nat) (fun s => s) ⟨(), 0⟩ 42 [] [7] [8]).2 =
    (GameAdapter.resetE (tictactoeTG Nat) (fun s => s) ⟨(), 999⟩ 42 [] [] [5]).2 :=
  adapter_reset_deterministic (tictactoeTG Nat) (fun s => s) ⟨(), 0⟩ ⟨(), 999⟩
    rfl 42 [] [7] [8] [] [5]

end Cartridge

namespace Cartridge

/-- Display string of an `ErasedGameError` (the `thiserror` format strings
in `erased.rs`), used by the service when erasing errors into Internal. -/
def ErasedGameError.msg : ErasedGameError → String
  | .encoding r => "Encoding error: " ++ r
  | .decoding r => "Decoding error: " ++ r
  | .invalidState r => "Invalid state: " ++ r
  | .invalidAction r => "Invalid action: " ++ r
  | .gameLogic r => "Game logic error: " ++ r

end Cartridge

namespace Cartridge.Service

open Cartridge

/-- Buffer pool (engine-server `buffers.rs`): three stacks of byte buffers.
Buffers are created empty and cleared when returned, so every pooled buffer
is empty; the stack depths are the observable statistics. -/
structure BufferPool where
  state_buffers : List (List Nat)
  obs_buffers : List (List Nat)
  action_buffers : List (List Nat)
deriving DecidableEq, Repr

/-- Pre-allocating constructor (`BufferPool::with_capacity`); the byte
capacity argument only reserves memory, with no observable effect here. -/
def BufferPool.with_capacity (state_count obs_count action_count : Nat) :
    BufferPool :=
  { state_buffers := List.replicate state_count []
    obs_buffers := List.replicate obs_count []
    action_buffers := List.replicate action_count [] }

/-- Pop a state buffer, or allocate a fresh empty one when the pool is
empty (`get_state_buffer`). -/
def BufferPool.get_state_buffer (p : BufferPool) : List Nat × BufferPool :=
  match p.state_buffers with
  | [] => ([], p)
  | b :: rest => (b, { p with state_buffers := rest })

/-- Pop an observation buffer, or allocate a fresh empty one
(`get_obs_buffer`). -/
def BufferPool.get_obs_buffer (p : BufferPool) : List Nat × BufferPool :=
  match p.obs_buffers with
  | [] => ([], p)
  | b :: rest => (b, { p with obs_buffers := rest })

/-- Clear a buffer and push it back (`return_state_buffer`). -/
def BufferPool.return_state_buffer (p : BufferPool) (_buf : List Nat) :
    BufferPool :=
  { p with state_buffers := [] :: p.state_buffers }

/-- Clear a buffer and push it back (`return_obs_buffer`). -/
def BufferPool.return_obs_buffer (p : BufferPool) (_buf : List Nat) :
    BufferPool :=
  { p with obs_buffers := [] :: p.obs_buffers }

/-- Pool statistics (`BufferPool::stats`): the three current depths
(state, observation, action). -/
def BufferPool.stats (p : BufferPool) : Nat × Nat × Nat :=
  (p.state_buffers.length, p.obs_buffers.length, p.action_buffers.length)

/-- gRPC status outcomes produced by the engine service. -/
inductive Status where
  | invalidArgument (msg : String)
  | notFound (msg : String)
  | failedPrecondition (msg : String)
  | internal (msg : String)
deriving DecidableEq, Repr

/-- Reset request (`engine.proto` ResetRequest): optional engine id, seed
and hint bytes. -/
structure ResetRequest where
  id : Option EngineId
  seed : Nat
  hint : List Nat

/-- Step request (`engine.proto` StepRequest): optional engine id, state
bytes and action bytes. -/
structure StepRequest where
  id : Option EngineId
  state : List Nat
  action : List Nat

/-- Reset response: encoded state and observation. -/
structure ResetResponse where
  state : List Nat
  obs : List Nat
deriving DecidableEq, Repr

/-- Step response: encoded state and observation, reward bits, done flag
and the opaque info word. -/
structure StepResponse where
  state : List Nat
  obs : List Nat
  reward : Nat
  done : Bool
  info : Nat
deriving DecidableEq, Repr

/-- Association-list model of the service's `HashMap<(String, String), _>`
instance cache: lookup by key. -/
def cacheFind {γ : Type} : List ((String × String) × γ) → String × String → Option γ
  | [], _ => none
  | e :: rest, key => if e.1 = key then some e.2 else cacheFind rest key

/-- Insert or replace the entry for a key in the instance cache. -/
def cacheInsert {γ : Type} :
    List ((String × String) × γ) → String × String → γ → List ((String × String) × γ)
  | [], key, g => [(key, g)]
  | e :: rest, key, g =>
      if e.1 = key then (key, g) :: rest else e :: cacheInsert rest key g

/-- Engine service state (`service.rs` struct `EngineService`): the buffer
pool and the `(env_id, build_id) → erased instance` cache.  The erased
instance type is a parameter `γ`. -/
structure EngineService (γ : Type) where
  buffer_pool : BufferPool
  game_cache : List ((String × String) × γ)

/-- Reset call of the engine service (`EngineService::reset` in
`service.rs`), parameterised by the registry (`create_game`; `is_registered`
holds exactly when it returns some, both reading the same map) and the
erased reset, which takes the two leased buffers and returns the mutated
instance together with either the filled buffers or an erased error.
The control flow mirrors the source exactly: missing id is rejected before
any buffer is acquired; the two buffers are acquired next; a vacant cache
entry is filled from the registry (unknown env_id is rejected at this
point); the erased reset runs on the cached instance; only the success path
returns the two buffers to the pool. -/
def EngineService.resetCall {γ : Type}
    (create_game : String → Option γ)
    (resetG : γ → Nat → List Nat → List Nat → List Nat →
      γ × Except ErasedGameError (List Nat × List Nat))
    (svc : EngineService γ) (req : ResetRequest) :
    Except Status ResetResponse × EngineService γ :=
  match req.id with
  | none => (Except.error (Status.invalidArgument "Missing engine_id"), svc)
  | some engine_id =>
    let env_id := engine_id.env_id
    let build_id := engine_id.build_id
    let (state_buf, pool1) := svc.buffer_pool.get_state_buffer
    let (obs_buf, pool2) := pool1.get_obs_buffer
    let run := fun (game : γ) =>
      let (game', res) := resetG game req.seed req.hint state_buf obs_buf
      let cache' := cacheInsert svc.game_cache (env_id, build_id) game'
      match res with
      | .error e =>
          (Except.error (Status.internal ("Reset failed: " ++ e.msg)),
           { buffer_pool := pool2, game_cache := cache' })
      | .ok (sb, ob) =>
          let pool3 := pool2.return_state_buffer sb
          let pool4 := pool3.return_obs_buffer ob
          (Except.ok { state := sb, obs := ob },
           { buffer_pool := pool4, game_cache := cache' })
    match cacheFind svc.game_cache (env_id, build_id) with
    | some game => run game
    | none =>
      match create_game env_id with
      | none =>
          (Except.error (Status.notFound ("Unknown env_id: " ++ env_id)),
           { buffer_pool := pool2, game_cache := svc.game_cache })
      | some game => run game

/-- Step call of the engine service (`EngineService::step` in `service.rs`):
missing id → InvalidArgument; unregistered env_id → NotFound (checked
before the cache is consulted); cache miss → FailedPrecondition; otherwise
acquire the two buffers, run the erased step (which also yields the info
word), and return the buffers only on the success path. -/
def EngineService.stepCall {γ : Type}
    (create_game : String → Option γ)
    (stepG : γ → List Nat → List Nat → List Nat → List Nat →
      γ × Except ErasedGameError (List Nat × List Nat × Nat × Bool × Nat))
    (svc : EngineService γ) (req : StepRequest) :
    Except Status StepResponse × EngineService γ :=
  match req.id with
  | none => (Except.error (Status.invalidArgument "Missing engine_id"), svc)
  | some engine_id =>
    if (create_game engine_id.env_id).isNone then
      (Except.error (Status.notFound ("Unknown env_id: " ++ engine_id.env_id)), svc)
    else
      let key := (engine_id.env_id, engine_id.build_id)
      match cacheFind svc.game_cache key with
      | none =>
          (Except.error
            (Status.failedPrecondition "Game not initialized - call reset before step"),
           svc)
      | some game =>
        let (new_state_buf, pool1) := svc.buffer_pool.get_state_buffer
        let (obs_buf, pool2) := pool1.get_obs_buffer
        let (game', res) := stepG game req.state req.action new_state_buf obs_buf
        let cache' := cacheInsert svc.game_cache key game'
        match res with
        | .error e =>
            (Except.error (Status.internal ("Step failed: " ++ e.msg)),
             { buffer_pool := pool2, game_cache := cache' })
        | .ok (sb, ob, reward, done, info) =>
            let pool3 := pool2.return_state_buffer sb
            let pool4 := pool3.return_obs_buffer ob
            (Except.ok
              { state := sb, obs := ob, reward := reward, done := done, info := info },
             { buffer_pool := pool4, game_cache := cache' })

/-- Registry holding only the tic-tac-toe environment, with a trivial
erased instance, for concrete service runs. -/
def demoCreate : String → Option Unit :=
  fun env_id => if env_id = "tictactoe" then some () else none

/-- Erased reset that always succeeds with empty outputs, for concrete
service runs. -/
def demoResetG : Unit → Nat → List Nat → List Nat → List Nat →
    Unit × Except ErasedGameError (List Nat × List Nat) :=
  fun g _ _ _ _ => (g, Except.ok ([], []))

/-- Erased step that always succeeds, for concrete service runs. -/
def demoStepG : Unit → List Nat → List Nat → List Nat → List Nat →
    Unit × Except ErasedGameError (List Nat × List Nat × Nat × Bool × Nat) :=
  fun g _ _ _ _ => (g, Except.ok ([], [], 0, false, 0))

/-- Service with two pre-allocated state and observation buffers and two
action buffers, fresh cache. -/
def svcTwoBuffers : EngineService Unit :=
  { buffer_pool := BufferPool.with_capacity 2 2 2, game_cache := [] }

/-- Reset request naming an env_id absent from the registry. -/
def resetUnknownReq : ResetRequest :=
  { id := some { env_id := "unknown", build_id := "x" }, seed := 0, hint := [] }

end Cartridge.Service

namespace Cartridge

open Cartridge.Service

/-- C1 fails on the code: a Reset call acquires one state and one
observation buffer from the pool before the registry lookup, and the
NotFound exit for an unknown env_id drops both leased buffers instead of
releasing them, so the pool depths shrink from (2, 2, 2) to (1, 1, 2)
across the failing call.  The in-call reset and step error exits drop
their leased buffers the same way; only the success paths release them. -/
theorem reset_unknown_env_leaks_buffers :
    svcTwoBuffers.buffer_pool.stats = (2, 2, 2) ∧
    (EngineService.resetCall demoCreate demoResetG svcTwoBuffers resetUnknownReq).1 =
      Except.error (Status.notFound "Unknown env_id: unknown") ∧
    (EngineService.resetCall demoCreate demoResetG svcTwoBuffers
        resetUnknownReq).2.buffer_pool.stats = (1, 1, 2) := by
  refine ⟨rfl, ?_, ?_⟩ <;> rfl

/-- C4: a Step whose (env_id, build_id) slot has never been reset but whose
env_id is registered is rejected with FailedPrecondition, and a Step whose
env_id is unregistered is rejected with NotFound for every cache content -
the registry check precedes the cache lookup; in both cases the service
state (instance cache and buffer pool) is unchanged. -/
theorem step_before_reset_rejected {γ : Type}
    (create_game : String → Option γ)
    (stepG : γ → List Nat → List Nat → List Nat → List Nat →
      γ × Except ErasedGameError (List Nat × List Nat × Nat × Bool × Nat))
    (svc : EngineService γ) (req : StepRequest) (eid : EngineId)
    (hid : req.id = some eid) :
    ((create_game eid.env_id).isSome →
      cacheFind svc.game_cache (eid.env_id, eid.build_id) = none →
      EngineService.stepCall create_game stepG svc req =
        (Except.error
          (Status.failedPrecondition "Game not initialized - call reset before step"),
         svc)) ∧
    (create_game eid.env_id = none →
      EngineService.stepCall create_game stepG svc req =
        (Except.error (Status.notFound ("Unknown env_id: " ++ eid.env_id)), svc)) := by
  constructor
  · intro hreg hmiss
    unfold EngineService.stepCall
    rw [hid]
    simp only [Option.isNone_iff_eq_none]
    rw [if_neg (by rw [Option.isSome_iff_ne_none] at hreg; simpa using hreg)]
    simp only [hmiss]
  · intro hreg
    unfold EngineService.stepCall
    rw [hid]
    simp only [hreg]
    rfl

theorem step_before_reset_rejected_witness :
    (EngineService.stepCall demoCreate demoStepG svcTwoBuffers
        { id := some { env_id := "tictactoe", build_id := "x" },
          state := List.replicate 11 0, action := [0] } =
      (Except.error
        (Status.failedPrecondition "Game not initialized - call reset before step"),
       svcTwoBuffers)) ∧
    (EngineService.stepCall demoCreate demoStepG svcTwoBuffers
        { id := some { env_id := "unknown", build_id := "x" },
          state := List.replicate 11 0, action := [0] } =
      (Except.error (Status.notFound "Unknown env_id: unknown"), svcTwoBuffers)) :=
  ⟨(step_before_reset_rejected demoCreate demoStepG svcTwoBuffers
      { id := some { env_id := "tictactoe", build_id := "x" },
        state := List.replicate 11 0, action := [0] }
      { env_id := "tictactoe", build_id := "x" } rfl).1 (by decide) rfl,
   (step_before_reset_rejected demoCreate demoStepG svcTwoBuffers
      { id := some { env_id := "unknown", build_id := "x" },
        state := List.replicate 11 0, action := [0] }
      { env_id := "unknown", build_id := "x" } rfl).2 (by decide)⟩

end Cartridge

namespace Cartridge.Policy

open Cartridge

/-- Action space as the actor's RandomPolicy stores it (actor-rust
`policy.rs`): Discrete n, MultiDiscrete nvec, or Continuous low/high bounds
(f32 values carried as bit patterns). -/
inductive PActionSpace where
  | discrete (n : Nat)
  | multiDiscrete (nvec : List Nat)
  | continuous (low high : List Nat)
deriving DecidableEq, Repr

/-- MultiDiscrete sampling loop of `RandomPolicy::select_action`: for each
component reject n = 0, otherwise sample with the rand `gen_range(0..n)`
primitive and append the four little-endian bytes. -/
def sampleMulti {R : Type} (gen_range_u32 : R → Nat → Nat × R) :
    List Nat → List Nat → R → Except String (List Nat × R)
  | [], acc, rng => Except.ok (acc, rng)
  | n :: rest, acc, rng =>
    if n = 0 then Except.error "Multi-discrete action space must have all n > 0"
    else
      match gen_range_u32 rng n with
      | (action, rng') => sampleMulti gen_range_u32 rest (acc ++ u32le action) rng'

/-- Continuous sampling loop of `RandomPolicy::select_action`: for each
(low, high) pair reject low >= high (the `f32_ge` comparison on bit
patterns), otherwise sample with the rand `gen_range(low..high)` primitive
and append the four little-endian bytes. -/
def sampleContinuous {R : Type} (gen_range_f32 : R → Nat → Nat → Nat × R)
    (f32_ge : Nat → Nat → Bool) :
    List (Nat × Nat) → List Nat → R → Except String (List Nat × R)
  | [], acc, rng => Except.ok (acc, rng)
  | p :: rest, acc, rng =>
    if f32_ge p.1 p.2 then
      Except.error "Continuous action space low bound must be less than high bound"
    else
      match gen_range_f32 rng p.1 p.2 with
      | (action, rng') =>
          sampleContinuous gen_range_f32 f32_ge rest (acc ++ u32le action) rng'

/-- Random policy action selection (`RandomPolicy::select_action`),
parameterised by the rand sampling primitives and the f32 comparison; the
observation argument is ignored by the implementation and omitted here. -/
def select_action {R : Type} (gen_range_u32 : R → Nat → Nat × R)
    (gen_range_f32 : R → Nat → Nat → Nat × R) (f32_ge : Nat → Nat → Bool)
    (sp : PActionSpace) (rng : R) : Except String (List Nat × R) :=
  match sp with
  | .discrete n =>
    if n = 0 then Except.error "Discrete action space must have n > 0"
    else
      match gen_range_u32 rng n with
      | (action, rng') => Except.ok (u32le action, rng')
  | .multiDiscrete nvec => sampleMulti gen_range_u32 nvec [] rng
  | .continuous low high =>
    if low.length ≠ high.length then
      Except.error "Continuous action space low and high bounds must have same length"
    else sampleContinuous gen_range_f32 f32_ge (low.zip high) [] rng

/-- Concatenation of the 4-byte little-endian encodings of a value list. -/
def concat32 (vals : List Nat) : List Nat :=
  vals.foldl (fun acc v => acc ++ u32le v) []

theorem u32le_roundtrip (v : Nat) (h : v < 4294967296) :
    u32fromLE (u32le v) = v := by
  unfold u32le u32fromLE
  simp only [List.getD_cons_zero, List.getD_cons_succ]
  omega

theorem sampleMulti_ok {R : Type} (gen_range_u32 : R → Nat → Nat × R)
    (Hu : ∀ r n, 0 < n → (gen_range_u32 r n).1 < n) (nvec : List Nat) :
    ∀ (acc : List Nat) (rng : R), (∀ n ∈ nvec, 0 < n ∧ n ≤ 4294967296) →
      ∃ vals rng', sampleMulti gen_range_u32 nvec acc rng =
          Except.ok (vals.foldl (fun a v => a ++ u32le v) acc, rng') ∧
        List.Forall₂ (fun v n => v < n ∧ u32fromLE (u32le v) = v) vals nvec := by
  induction nvec with
  | nil => exact fun acc rng _ => ⟨[], rng, rfl, List.Forall₂.nil⟩
  | cons n rest ih =>
      intro acc rng hpos
      have hn : 0 < n := (hpos n (List.mem_cons_self n rest)).1
      have hnle : n ≤ 4294967296 := (hpos n (List.mem_cons_self n rest)).2
      rcases hg : gen_range_u32 rng n with ⟨a, r1⟩
      obtain ⟨vals, rng', hrun, hFa⟩ :=
        ih (acc ++ u32le a) r1 (fun m hm => hpos m (List.mem_cons_of_mem n hm))
      have ha : a < n := by
        have := Hu rng n hn
        rw [hg] at this
        exact this
      refine ⟨a :: vals, rng', ?_, ?_⟩
      · simp only [sampleMulti]
        rw [if_neg (by omega)]
        simp only [hg]
        rw [List.foldl_cons]
        exact hrun
      · exact List.Forall₂.cons ⟨ha, u32le_roundtrip a (by omega)⟩ hFa

theorem sampleContinuous_ok {R : Type} (gen_range_f32 : R → Nat → Nat → Nat × R)
    (f32_ge : Nat → Nat → Bool) (InRange : Nat → Nat → Nat → Prop)
    (Hf : ∀ r lo hi, f32_ge lo hi = false → InRange lo (gen_range_f32 r lo hi).1 hi)
    (pairs : List (Nat × Nat)) :
    ∀ (acc : List Nat) (rng : R), (∀ p ∈ pairs, f32_ge p.1 p.2 = false) →
      ∃ vals rng', sampleContinuous gen_range_f32 f32_ge pairs acc rng =
          Except.ok (vals.foldl (fun a v => a ++ u32le v) acc, rng') ∧
        List.Forall₂ (fun v p => InRange p.1 v p.2) vals pairs := by
  induction pairs with
  | nil => exact fun acc rng _ => ⟨[], rng, rfl, List.Forall₂.nil⟩
  | cons p rest ih =>
      intro acc rng hok
      have hp : f32_ge p.1 p.2 = false := hok p (List.mem_cons_self p rest)
      rcases hg : gen_range_f32 rng p.1 p.2 with ⟨a, r1⟩
      obtain ⟨vals, rng', hrun, hFa⟩ :=
        ih (acc ++ u32le a) r1 (fun q hq => hok q (List.mem_cons_of_mem p hq))
      have ha : InRange p.1 a p.2 := by
        have := Hf rng p.1 p.2 hp
        rw [hg] at this
        exact this
      refine ⟨a :: vals, rng', ?_, ?_⟩
      · simp only [sampleContinuous]
        rw [if_neg (by rw [hp]; exact Bool.false_ne_true)]
        simp only [hg]
        rw [List.foldl_cons]
        exact hrun
      · exact List.Forall₂.cons ha hFa

/-- C7: with the rand sampling primitives satisfying their documented range
contracts, RandomPolicy action selection on a well-formed action space
succeeds and its output decodes in range: Discrete n with n positive yields
four little-endian bytes decoding to a value below n; MultiDiscrete with
all components positive yields the concatenation of 4-byte components, each
decoding below its bound; Continuous with equal-length bounds and every low
strictly below its high yields components in [low, high); and Discrete 0
fails with an error. -/
theorem random_policy_in_range {R : Type}
    (gen_range_u32 : R → Nat → Nat × R)
    (gen_range_f32 : R → Nat → Nat → Nat × R) (f32_ge : Nat → Nat → Bool)
    (InRange : Nat → Nat → Nat → Prop)
    (Hu : ∀ r n, 0 < n → (gen_range_u32 r n).1 < n)
    (Hf : ∀ r lo hi, f32_ge lo hi = false → InRange lo (gen_range_f32 r lo hi).1 hi) :
    (∀ n r, 0 < n → n ≤ 4294967296 →
      ∃ v rng', select_action gen_range_u32 gen_range_f32 f32_ge
          (PActionSpace.discrete n) r = Except.ok (u32le v, rng') ∧
        (u32le v).length = 4 ∧ u32fromLE (u32le v) = v ∧ v < n) ∧
    (∀ nvec r, (∀ n ∈ nvec, 0 < n ∧ n ≤ 4294967296) →
      ∃ vals rng', select_action gen_range_u32 gen_range_f32 f32_ge
          (PActionSpace.multiDiscrete nvec) r = Except.ok (concat32 vals, rng') ∧
        List.Forall₂ (fun v n => v < n ∧ u32fromLE (u32le v) = v) vals nvec) ∧
    (∀ low high r, low.length = high.length →
        (∀ p ∈ low.zip high, f32_ge p.1 p.2 = false) →
      ∃ vals rng', select_action gen_range_u32 gen_range_f32 f32_ge
          (PActionSpace.continuous low high) r = Except.ok (concat32 vals, rng') ∧
        List.Forall₂ (fun v p => InRange p.1 v p.2) vals (low.zip high)) ∧
    (∀ r : R, select_action gen_range_u32 gen_range_f32 f32_ge
        (PActionSpace.discrete 0) r =
      Except.error "Discrete action space must have n > 0") := by
  refine ⟨?_, ?_, ?_, fun r => rfl⟩
  · intro n r hn hle
    rcases hg : gen_range_u32 r n with ⟨v, r'⟩
    have hv : v < n := by
      have := Hu r n hn
      rw [hg] at this
      exact this
    refine ⟨v, r', ?_, rfl, u32le_roundtrip v (by omega), hv⟩
    simp only [select_action]
    rw [if_neg (by omega)]
    simp only [hg]
  · intro nvec r hpos
    obtain ⟨vals, rng', hrun, hFa⟩ := sampleMulti_ok gen_range_u32 Hu nvec [] r hpos
    exact ⟨vals, rng', hrun, hFa⟩
  · intro low high r hlen hok
    obtain ⟨vals, rng', hrun, hFa⟩ :=
      sampleContinuous_ok gen_range_f32 f32_ge InRange Hf (low.zip high) [] r hok
    refine ⟨vals, rng', ?_, hFa⟩
    simp only [select_action]
    rw [if_neg (by omega)]
    exact hrun

theorem random_policy_in_range_witness :
    ∃ v rng', select_action (fun r n => (r % n, r + 1))
        (fun r lo _hi => (lo, r)) (fun a b => decide (b ≤ a))
        (PActionSpace.discrete 9) 5 = Except.ok (u32le v, rng') ∧
      (u32le v).length = 4 ∧ u32fromLE (u32le v) = v ∧ v < 9 :=
  (random_policy_in_range (fun r n => (r % n, r + 1))
    (fun r lo _hi => (lo, r)) (fun a b => decide (b ≤ a))
    (fun lo v hi => lo ≤ v ∧ v < hi)
    (fun r n hn => Nat.mod_lt r hn)
    (fun _r lo hi hge =>
      ⟨Nat.le_refl lo, Nat.lt_of_not_le (by simpa using hge)⟩)).1
    9 5 (by omega) (by omega)

end Cartridge.Policy
